import Mathlib

/-!
Shallow embedding of the "ideal gas" particle simulation (src/main.cpp).

The C++ source uses `fptype = double` and `vec = std::complex<fptype>`;
we model `fptype` as the rational numbers and `vec` as a pair of
rationals.  All arithmetic the program performs on vectors is
component-wise addition/subtraction, scaling by a scalar, division by a
scalar, `std::norm` (which for `std::complex` is the SQUARED magnitude),
and `dot(x, y) = (x * conj(y)).real() = x.re*y.re + x.im*y.im` — all of
which are rational-closed, so the embedding is executable and decidable
on concrete inputs.

The mutable global vectors `position` / `velocity` are modelled as a
`State` holding the common size and two index functions.
-/

namespace IdealGas

/-- Two-dimensional vector, modelling `vec = std::complex<fptype>` with `fptype` as ℚ. -/
structure Vec where
  re : ℚ
  im : ℚ
deriving DecidableEq

instance : Add Vec := ⟨fun x y => ⟨x.re + y.re, x.im + y.im⟩⟩

instance : Sub Vec := ⟨fun x y => ⟨x.re - y.re, x.im - y.im⟩⟩

instance : Neg Vec := ⟨fun x => ⟨-x.re, -x.im⟩⟩

/-- Scaling a vector by a scalar: `std::complex * fptype`. -/
def Vec.smul (c : ℚ) (x : Vec) : Vec := ⟨c * x.re, c * x.im⟩

/-- Dividing a vector by a scalar: `std::complex / fptype`. -/
def Vec.divs (x : Vec) (c : ℚ) : Vec := ⟨x.re / c, x.im / c⟩

@[simp] theorem Vec.add_def (x y : Vec) : x + y = ⟨x.re + y.re, x.im + y.im⟩ := rfl

@[simp] theorem Vec.sub_def (x y : Vec) : x - y = ⟨x.re - y.re, x.im - y.im⟩ := rfl

/-- Source `dot(x, y) = (x * conj(y)).real()`. -/
def dot (x y : Vec) : ℚ := x.re * y.re + x.im * y.im

/-- Model of `std::norm` on `std::complex`: the SQUARED magnitude `re² + im²`. -/
def cnorm (x : Vec) : ℚ := x.re * x.re + x.im * x.im

/-- Source `fptype radius = 5;`. -/
def radius : ℚ := 5

/-- Source `constexpr fptype damp = 1;`. -/
def damp : ℚ := 1

/-- Source `int world_width = 500;`. -/
def world_width : ℚ := 500

/-- Source `int world_height = world_width;`. -/
def world_height : ℚ := world_width

/-- Source `auto constexpr update_step = 16ms;`, used in `update` as the scalar
`static_cast<fptype>(update_step.count()) = 16`. -/
def update_step : ℚ := 16

/-- Source `const fptype col_rad = 3 * radius;`. -/
def col_rad : ℚ := 3 * radius

/-- Source `constexpr fptype smooth = .0001;`, the ε guarding division by zero. -/
def smooth : ℚ := 1 / 10000

/-- Source `clamp(low, high, x) = std::max(low, std::min(high, x))`. -/
def clamp (low high x : ℚ) : ℚ := max low (min high x)

/-- Source `in_bounds`: both the real and the imaginary
coordinate are clamped with `clamp(radius, world_height - radius, _)` —
the source uses `world_height` for BOTH coordinates. -/
def in_bounds (x : Vec) : Vec :=
  ⟨clamp radius (world_height - radius) x.re,
   clamp radius (world_height - radius) x.im⟩

/-- Simulation state: the parallel global vectors `position` and
`velocity`, both of length `n`. -/
structure State where
  n : ℕ
  position : ℕ → Vec
  velocity : ℕ → Vec

/-- Source `is_collide(i1, i2)`: `norm(position[i1] - position[i2]) <= col_rad`
(`std::norm` is the squared magnitude). -/
def is_collide (s : State) (i1 i2 : ℕ) : Bool :=
  decide (cnorm (s.position i1 - s.position i2) ≤ col_rad)

/-- The lambda `collide_vel` inside `collide_update`:
`d = p1 - p2`, `u = d / (norm(d) + smooth)`, result `v1 - dot(v1-v2, u) * d`. -/
def collide_vel (v1 v2 p1 p2 : Vec) : Vec :=
  let d := p1 - p2
  let u := Vec.divs d (cnorm d + smooth)
  v1 - Vec.smul (dot (v1 - v2) u) d

/-- The lambda `collide_pos` inside `collide_update`:
`p1 - ((p1 - p2) / (norm(p1 - p2) + smooth)) * col_rad`. -/
def collide_pos (p1 p2 : Vec) : Vec :=
  p1 - Vec.smul col_rad (Vec.divs (p1 - p2) (cnorm (p1 - p2) + smooth))

/-- Point update of an index function, modelling an array store. -/
def upd (f : ℕ → Vec) (i : ℕ) (x : Vec) : ℕ → Vec :=
  fun k => if k = i then x else f k

/-- Source `collide_update(i1, i2)`: reads `v1, v2, p1, p2`, then stores
`velocity[i1] = collide_vel(v1,v2,p1,p2)`, `velocity[i2] = collide_vel(v2,v1,p1,p2)`,
`position[i1] = collide_pos(p1,p2)`, `position[i2] = collide_pos(p2,p1)`. -/
def collide_update (s : State) (i1 i2 : ℕ) : State :=
  let v1 := s.velocity i1
  let v2 := s.velocity i2
  let p1 := s.position i1
  let p2 := s.position i2
  { n := s.n
    velocity := upd (upd s.velocity i1 (collide_vel v1 v2 p1 p2)) i2 (collide_vel v2 v1 p1 p2)
    position := upd (upd s.position i1 (collide_pos p1 p2)) i2 (collide_pos p2 p1) }

/-- The body of the first loop of `update` for one index:
integrate `position += velocity * 16`, reflect the velocity at the walls
(x tested against `radius` / `world_width - radius`, y against
`radius` / `world_height - radius`), finally `position = in_bounds(position)`.
Returns the new (position, velocity). -/
def integrate_body (p v : Vec) : Vec × Vec :=
  let p' := p + Vec.smul update_step v
  let v1 := if p'.re ≤ radius ∨ world_width - radius ≤ p'.re
            then Vec.smul damp ⟨-v.re, v.im⟩ else v
  let v2 := if p'.im ≤ radius ∨ world_height - radius ≤ p'.im
            then Vec.smul damp ⟨v1.re, -v1.im⟩ else v1
  (in_bounds p', v2)

/-- The first loop of `update` (the Integrator pass): each index `i < n`
is integrated, wall-reflected and clamped; indices are independent, so
the in-place loop is a pointwise map. -/
def integrate_pass (s : State) : State :=
  { n := s.n
    position := fun i => if i < s.n then (integrate_body (s.position i) (s.velocity i)).1
                         else s.position i
    velocity := fun i => if i < s.n then (integrate_body (s.position i) (s.velocity i)).2
                         else s.velocity i }

/-- The sequence of index pairs visited by the double collision loop of
`update`: `i` from `0` to `n-1`, inner `j` from `0` to `n-1`, skipping
`i == j`.  Every ORDERED pair with distinct components appears. -/
def pairList (n : ℕ) : List (ℕ × ℕ) :=
  (List.range n).flatMap fun i =>
    ((List.range n).filter fun j => j ≠ i).map fun j => (i, j)

/-- The second loop of `update` (the Collision Resolver pass): fold over
the visited pairs, resolving a colliding pair immediately so that later
pairs observe the updated state. -/
def collision_pass (s : State) : State :=
  (pairList s.n).foldl
    (fun t ij => if is_collide t ij.1 ij.2 then collide_update t ij.1 ij.2 else t) s

/-- Source `update()`: one simulation tick — the Integrator pass, then the
Collision Resolver pass. -/
def update (s : State) : State := collision_pass (integrate_pass s)

/-- The catch-up while loop of the main loop:
`for(; lag >= update_step; lag -= update_step) update();`
returns (ticks run, leftover lag).  Time is modelled in integral clock
units; `tick` is the tick duration in those units.  The `0 < tick`
conjunct only forces termination — the source's tick duration (16 ms)
is positive, and for positive `tick` the condition is the source's
`lag >= update_step`. -/
def drain (tick lag : ℕ) : ℕ × ℕ :=
  if h : 0 < tick ∧ tick ≤ lag then
    let r := drain tick (lag - tick)
    (r.1 + 1, r.2)
  else (0, lag)
termination_by lag
decreasing_by
  exact Nat.sub_lt (Nat.lt_of_lt_of_le h.1 h.2) h.1

/-- One frame of the main loop: add this frame's elapsed-time delta to
the lag, then drain whole ticks.  The accumulator is
(ticks run so far, current lag). -/
def frameStep (tick : ℕ) (acc : ℕ × ℕ) (dt : ℕ) : ℕ × ℕ :=
  let r := drain tick (acc.2 + dt)
  (acc.1 + r.1, r.2)

/-- The per-frame accumulator of the main loop, fed a sequence of
elapsed-time deltas.  Returns (total ticks run, final lag); the lag
starts at zero (`auto lag = last_time - last_time;`). -/
def runFrames (tick : ℕ) (deltas : List ℕ) : ℕ × ℕ :=
  deltas.foldl (frameStep tick) (0, 0)

/-- Concrete two-body state: bodies at (0,0) and (4,0), both at rest.
Their squared distance is 16. -/
def stSixteen : State :=
  ⟨2, fun i => if i = 0 then ⟨0, 0⟩ else ⟨4, 0⟩, fun _ => ⟨0, 0⟩⟩

/-- Concrete two-body state: both bodies at (7,3) (exactly coincident),
with velocities (1,2) and (-1,0). -/
def stCoincident : State :=
  ⟨2, fun _ => ⟨7, 3⟩, fun i => if i = 0 then ⟨1, 2⟩ else ⟨-1, 0⟩⟩

/-- Concrete two-body state for the collision-formula check: body 0 at
(3,0) with velocity (1,0), body 1 at the origin at rest.  The separation
is (3,0), whose Euclidean norm is 3 and whose squared norm is 9. -/
def stFormula : State :=
  ⟨2, fun i => if i = 0 then ⟨3, 0⟩ else ⟨0, 0⟩,
     fun i => if i = 0 then ⟨1, 0⟩ else ⟨0, 0⟩⟩

/-- Two-body family for the x-axis scenario: body 0 at (a + d, b),
body 1 at (a, b), both at rest. -/
def axisState (a b d : ℚ) : State :=
  ⟨2, fun k => if k = 0 then ⟨a + d, b⟩ else ⟨a, b⟩, fun _ => ⟨0, 0⟩⟩

/-- Concrete one-body state for the bounds witness. -/
def stOne : State := ⟨1, fun _ => ⟨0, 0⟩, fun _ => ⟨0, 0⟩⟩

/-- Concrete one-body state: at x = radius - 1 = 4, moving left. -/
def stLeft : State := ⟨1, fun _ => ⟨4, 100⟩, fun _ => ⟨-1, 0⟩⟩

/-! ## Helper lemmas -/

theorem upd_same (f : ℕ → Vec) (i : ℕ) (x : Vec) : upd f i x i = x := by
  simp [upd]

theorem upd_other (f : ℕ → Vec) {i k : ℕ} (x : Vec) (h : k ≠ i) : upd f i x k = f k := by
  simp [upd, h]

theorem clamp_low (low high x : ℚ) : low ≤ clamp low high x := le_max_left _ _

theorem clamp_high {low high : ℚ} (x : ℚ) (h : low ≤ high) : clamp low high x ≤ high :=
  max_le h (min_le_left _ _)

theorem collide_update_velocity_fst (s : State) {i j : ℕ} (hij : i ≠ j) :
    (collide_update s i j).velocity i
      = collide_vel (s.velocity i) (s.velocity j) (s.position i) (s.position j) := by
  simp [collide_update, upd, hij]

theorem collide_update_velocity_snd (s : State) (i j : ℕ) :
    (collide_update s i j).velocity j
      = collide_vel (s.velocity j) (s.velocity i) (s.position i) (s.position j) := by
  simp [collide_update, upd]

theorem collide_update_position_fst (s : State) {i j : ℕ} (hij : i ≠ j) :
    (collide_update s i j).position i
      = collide_pos (s.position i) (s.position j) := by
  simp [collide_update, upd, hij]

theorem collide_update_position_snd (s : State) (i j : ℕ) :
    (collide_update s i j).position j
      = collide_pos (s.position j) (s.position i) := by
  simp [collide_update, upd]

theorem cnorm_sub_comm (x y : Vec) : cnorm (x - y) = cnorm (y - x) := by
  simp only [cnorm, Vec.sub_def]
  ring

theorem cnorm_add_smooth_pos (x : Vec) : 0 < cnorm x + smooth := by
  have h1 : 0 ≤ cnorm x := by
    simp only [cnorm]
    nlinarith [mul_self_nonneg x.re, mul_self_nonneg x.im]
  have h2 : (0 : ℚ) < smooth := by norm_num [smooth]
  linarith

/-- The difference of the two position corrections: both bodies are
moved along the same line, and the new separation is the old one scaled
by `1 - 2*col_rad/(cnorm d + smooth)`. -/
theorem collide_pos_sub (p1 p2 : Vec) :
    collide_pos p1 p2 - collide_pos p2 p1
      = Vec.smul (1 - 2 * col_rad / (cnorm (p1 - p2) + smooth)) (p1 - p2) := by
  have h1 : ((p1.re - p2.re) * (p1.re - p2.re) + (p1.im - p2.im) * (p1.im - p2.im) + smooth)
      ≠ 0 := by
    have := cnorm_add_smooth_pos (p1 - p2)
    simp only [cnorm, Vec.sub_def] at this
    linarith
  have hdd : (p2.re - p1.re) * (p2.re - p1.re) + (p2.im - p1.im) * (p2.im - p1.im)
      = (p1.re - p2.re) * (p1.re - p2.re) + (p1.im - p2.im) * (p1.im - p2.im) := by ring
  simp only [collide_pos, Vec.smul, Vec.divs, Vec.sub_def, cnorm, Vec.mk.injEq, hdd]
  constructor <;> (field_simp; ring)

theorem collide_vel_rest (p1 p2 : Vec) :
    collide_vel ⟨0, 0⟩ ⟨0, 0⟩ p1 p2 = ⟨0, 0⟩ := by
  simp [collide_vel, dot, Vec.smul, Vec.sub_def]

theorem collide_vel_coincident (v1 v2 p : Vec) : collide_vel v1 v2 p p = v1 := by
  simp [collide_vel, dot, Vec.smul, Vec.divs, Vec.sub_def, cnorm]

theorem collide_pos_coincident (p : Vec) : collide_pos p p = p := by
  simp [collide_pos, Vec.smul, Vec.divs, Vec.sub_def, cnorm]

theorem clamp_le_low {low high : ℚ} {x : ℚ} (hx : x ≤ low) (hlh : low ≤ high) :
    clamp low high x = low := by
  unfold clamp
  rw [min_eq_right (hx.trans hlh), max_eq_left hx]

theorem integrate_body_fst (p v : Vec) :
    (integrate_body p v).1 = in_bounds (p + Vec.smul update_step v) := rfl

/-- One Integrator step on a body at `x = radius - 1` moving left: the
post-integration x is strictly below `radius`, so the x-reflection fires
(flipping the x velocity to be positive; `damp = 1`) and the final clamp
puts the body exactly at `x = radius`. -/
theorem integrate_body_left_wall (p v : Vec) (hp : p.re = radius - 1) (hv : v.re < 0) :
    0 < ((integrate_body p v).2).re ∧ ((integrate_body p v).1).re = radius := by
  have hpre : (p + Vec.smul update_step v).re = radius - 1 + 16 * v.re := by
    simp [Vec.smul, hp, update_step]
  have hlow : (p + Vec.smul update_step v).re ≤ radius := by
    rw [hpre]; linarith
  have hcond : (p + Vec.smul update_step v).re ≤ radius
      ∨ world_width - radius ≤ (p + Vec.smul update_step v).re := Or.inl hlow
  constructor
  · simp only [integrate_body, if_pos hcond]
    split_ifs with h2 <;>
      simp only [Vec.smul, damp] <;> linarith
  · rw [integrate_body_fst]
    simp only [in_bounds]
    have hlh : radius ≤ world_height - radius := by
      norm_num [radius, world_height, world_width]
    exact clamp_le_low hlow hlh

/-! ## Claims -/

/-- Claim C2, counterexample: with bodies at (0,0) and (4,0) the squared
separation is 16 ≤ col_rad² = 225, yet `is_collide` returns false — the
source compares the squared norm against `col_rad` itself (15), not
against `col_rad²`, so detection is NOT "true iff squaredNorm ≤ col_rad²". -/
theorem is_collide_against_col_rad_sq_refuted :
    ¬ (is_collide stSixteen 0 1 = true
       ↔ cnorm (stSixteen.position 0 - stSixteen.position 1) ≤ col_rad * col_rad) := by
  simp only [is_collide, stSixteen, cnorm, col_rad, radius, Vec.sub_def]
  norm_num

/-- Claim C2 (amended): for all indices, `is_collide(i,j)` is true iff the
squared norm of `position[i] - position[j]` is at most `col_rad` (NOT
`col_rad²`): the source compares `std::norm`, the squared magnitude,
directly against the un-squared threshold `col_rad`. -/
theorem is_collide_iff_sq_le_col_rad (s : State) (i j : ℕ) :
    is_collide s i j = true ↔ cnorm (s.position i - s.position j) ≤ col_rad := by
  simp [is_collide]

/-- Claim C9: if `position[i] == position[j]` exactly, `collide_update`
is a no-op: the ε term keeps the denominator `norm(d) + smooth` nonzero,
and every body's position and velocity is left exactly unchanged. -/
theorem collide_update_coincident_noop (s : State) (i j k : ℕ)
    (h : s.position i = s.position j) :
    cnorm (s.position i - s.position j) + smooth ≠ 0
    ∧ (collide_update s i j).position k = s.position k
    ∧ (collide_update s i j).velocity k = s.velocity k := by
  refine ⟨?_, ?_, ?_⟩
  · rw [h]
    simp [cnorm, Vec.sub_def, smooth]
  · simp only [collide_update, h, collide_pos_coincident, upd]
    split_ifs with h1 h2 <;> simp_all
  · simp only [collide_update, h, collide_vel_coincident, upd]
    split_ifs with h1 h2 <;> simp_all

/-- Witness for C9 at the concrete coincident state. -/
theorem collide_update_coincident_noop_witness :
    stCoincident.position 0 = stCoincident.position 1
    ∧ (cnorm (stCoincident.position 0 - stCoincident.position 1) + smooth ≠ 0
       ∧ (collide_update stCoincident 0 1).position 0 = stCoincident.position 0
       ∧ (collide_update stCoincident 0 1).velocity 0 = stCoincident.velocity 0) :=
  ⟨rfl, collide_update_coincident_noop stCoincident 0 1 0 rfl⟩

/-- Claim C10: `in_bounds` clamps both coordinates into
`[radius, world_height - radius]` — the x coordinate is clamped against
`world_height` (the source's `clamper` uses `world_height` for both
components), which coincides with `[radius, world_width - radius]` only
because `world_width = world_height` in this program. -/
theorem in_bounds_clamps_against_height (p : Vec) :
    (in_bounds p).re = clamp radius (world_height - radius) p.re
    ∧ (in_bounds p).im = clamp radius (world_height - radius) p.im
    ∧ radius ≤ (in_bounds p).re ∧ (in_bounds p).re ≤ world_height - radius
    ∧ radius ≤ (in_bounds p).im ∧ (in_bounds p).im ≤ world_height - radius
    ∧ world_width = world_height := by
  have hle : radius ≤ world_height - radius := by
    norm_num [radius, world_height, world_width]
  exact ⟨rfl, rfl, clamp_low _ _ _, clamp_high _ hle, clamp_low _ _ _, clamp_high _ hle, rfl⟩

/-- Claim C3, counterexample: at `stFormula` the separation is
`d = (3,0)`, whose Euclidean norm is 3 (witnessed by `3 * 3 = cnorm d`
and `0 ≤ 3`).  The spec formula `v1' = v1 - dot(v1-v2, d/(‖d‖+ε)) * d`
(with `‖d‖ = 3`) gives a different velocity than the code, because the
code divides by `norm(d) + ε` where `std::norm` is the SQUARED norm. -/
theorem resolve_velocity_spec_formula_refuted :
    (0 : ℚ) ≤ 3
    ∧ (3 : ℚ) * 3 = cnorm (stFormula.position 0 - stFormula.position 1)
    ∧ (collide_update stFormula 0 1).velocity 0
        ≠ stFormula.velocity 0
          - Vec.smul (dot (stFormula.velocity 0 - stFormula.velocity 1)
              (Vec.divs (stFormula.position 0 - stFormula.position 1) (3 + smooth)))
            (stFormula.position 0 - stFormula.position 1) := by
  refine ⟨by norm_num, ?_, ?_⟩
  · simp only [stFormula, cnorm, Vec.sub_def]
    norm_num
  · simp only [stFormula, collide_update, collide_vel, upd, cnorm, dot, smooth,
      Vec.smul, Vec.divs, Vec.sub_def, Vec.mk.injEq]
    norm_num

/-- Claim C3 (amended): `collide_update(i,j)` updates the velocities by
`v1' = v1 - dot(v1-v2, u) * d` and `v2' = v2 - dot(v2-v1, u) * d` with
`d = position[i] - position[j]` and `u = d / (cnorm d + ε)`, where
`cnorm` is the SQUARED norm (`std::norm`), not the Euclidean norm; the
second body uses the same `d` and `u` (equivalent to using the
opposite-signed `d` and `u`, whose two sign flips cancel). -/
theorem collide_update_velocity_formula (s : State) (i j : ℕ) (hij : i ≠ j) :
    (collide_update s i j).velocity i
      = s.velocity i
        - Vec.smul (dot (s.velocity i - s.velocity j)
            (Vec.divs (s.position i - s.position j)
              (cnorm (s.position i - s.position j) + smooth)))
          (s.position i - s.position j)
    ∧ (collide_update s i j).velocity j
      = s.velocity j
        - Vec.smul (dot (s.velocity j - s.velocity i)
            (Vec.divs (s.position i - s.position j)
              (cnorm (s.position i - s.position j) + smooth)))
          (s.position i - s.position j) := by
  rw [collide_update_velocity_fst s hij, collide_update_velocity_snd]
  exact ⟨rfl, rfl⟩

/-- Witness for the amended C3 at the concrete state `stFormula`. -/
theorem collide_update_velocity_formula_witness :
    (0 : ℕ) ≠ 1
    ∧ ((collide_update stFormula 0 1).velocity 0
        = stFormula.velocity 0
          - Vec.smul (dot (stFormula.velocity 0 - stFormula.velocity 1)
              (Vec.divs (stFormula.position 0 - stFormula.position 1)
                (cnorm (stFormula.position 0 - stFormula.position 1) + smooth)))
            (stFormula.position 0 - stFormula.position 1)
       ∧ (collide_update stFormula 0 1).velocity 1
        = stFormula.velocity 1
          - Vec.smul (dot (stFormula.velocity 1 - stFormula.velocity 0)
              (Vec.divs (stFormula.position 0 - stFormula.position 1)
                (cnorm (stFormula.position 0 - stFormula.position 1) + smooth)))
            (stFormula.position 0 - stFormula.position 1)) :=
  ⟨by decide, collide_update_velocity_formula stFormula 0 1 (by decide)⟩

/-- Claim C4, counterexample: at the coincident state the pair IS
detected as colliding, yet after `collide_update` the two positions are
still identical, so their separation is 0, which is NOT ≥ col_rad
(`‖x‖ ≥ col_rad` iff `col_rad² ≤ cnorm x`, since `col_rad ≥ 0`).  The
position "correction" also moves each body TOWARD the other, not away. -/
theorem post_resolve_separation_refuted :
    is_collide stCoincident 0 1 = true
    ∧ (collide_update stCoincident 0 1).position 0
        - (collide_update stCoincident 0 1).position 1 = ⟨0, 0⟩
    ∧ ¬ (col_rad * col_rad
          ≤ cnorm ((collide_update stCoincident 0 1).position 0
                    - (collide_update stCoincident 0 1).position 1)) := by
  refine ⟨?_, ?_, ?_⟩
  · simp only [is_collide, stCoincident, cnorm, col_rad, radius, Vec.sub_def]
    norm_num
  · simp only [stCoincident, collide_update, collide_pos, upd, cnorm, smooth,
      Vec.smul, Vec.divs, Vec.sub_def, Vec.mk.injEq]
    norm_num
  · simp only [stCoincident, collide_update, collide_pos, upd, cnorm, smooth,
      col_rad, radius, Vec.smul, Vec.divs, Vec.sub_def]
    norm_num

/-- Claim C4 (amended): immediately after `collide_update(i,j)` the
separation is the OLD separation scaled by
`1 - 2*col_rad/(cnorm d + ε)`: both corrections move the bodies along
the line of centers TOWARD each other (each subtracts
`col_rad * d/(cnorm d + ε)` pointing at itself), and no lower bound
`≥ col_rad` on the new separation holds. -/
theorem collide_update_separation_formula (s : State) (i j : ℕ) (hij : i ≠ j) :
    (collide_update s i j).position i - (collide_update s i j).position j
      = Vec.smul (1 - 2 * col_rad / (cnorm (s.position i - s.position j) + smooth))
          (s.position i - s.position j) := by
  rw [collide_update_position_fst s hij, collide_update_position_snd, collide_pos_sub]

/-- Witness for the amended C4 at the concrete state `stFormula`. -/
theorem collide_update_separation_formula_witness :
    (0 : ℕ) ≠ 1
    ∧ (collide_update stFormula 0 1).position 0 - (collide_update stFormula 0 1).position 1
      = Vec.smul
          (1 - 2 * col_rad / (cnorm (stFormula.position 0 - stFormula.position 1) + smooth))
          (stFormula.position 0 - stFormula.position 1) :=
  ⟨by decide, collide_update_separation_formula stFormula 0 1 (by decide)⟩

/-- Claim C5, counterexample: two resting bodies at distance 1 < col_rad
along the x-axis.  After one `collide_update` the velocities do stay
zero, but the separation is `(1 - 2*col_rad/(1+ε))·1 ≈ -29`, whose
squared norm is not `col_rad²`, so the separation is NOT exactly
`col_rad` (`‖x‖ = col_rad` iff `cnorm x = col_rad²`, as `col_rad ≥ 0`). -/
theorem axis_resolve_separation_refuted :
    (0 : ℚ) < 1 ∧ (1 : ℚ) < col_rad
    ∧ (collide_update (axisState 0 0 1) 0 1).velocity 0 = ⟨0, 0⟩
    ∧ (collide_update (axisState 0 0 1) 0 1).velocity 1 = ⟨0, 0⟩
    ∧ cnorm ((collide_update (axisState 0 0 1) 0 1).position 0
              - (collide_update (axisState 0 0 1) 0 1).position 1)
        ≠ col_rad * col_rad := by
  refine ⟨by norm_num, by norm_num [col_rad, radius], ?_, ?_, ?_⟩
  · simp only [axisState, collide_update, collide_vel, dot, upd, cnorm, smooth,
      col_rad, radius, Vec.smul, Vec.divs, Vec.sub_def, Vec.mk.injEq]
    norm_num
  · simp only [axisState, collide_update, collide_vel, dot, upd, cnorm, smooth,
      col_rad, radius, Vec.smul, Vec.divs, Vec.sub_def, Vec.mk.injEq]
    norm_num
  · simp only [axisState, collide_update, collide_pos, upd, cnorm, smooth,
      col_rad, radius, Vec.smul, Vec.divs, Vec.sub_def]
    norm_num

/-- Claim C5 (amended): for two bodies at rest at distance
`0 < d < col_rad` along the x-axis, one `collide_update` leaves both
velocities zero (no energy injected), and the new separation is still
along the x-axis but equals `(1 - 2*col_rad/(d² + ε)) * d`, not
`col_rad`. -/
theorem axis_resolve (a b d : ℚ) (hd0 : 0 < d) (hdc : d < col_rad) :
    (collide_update (axisState a b d) 0 1).velocity 0 = ⟨0, 0⟩
    ∧ (collide_update (axisState a b d) 0 1).velocity 1 = ⟨0, 0⟩
    ∧ (collide_update (axisState a b d) 0 1).position 0
        - (collide_update (axisState a b d) 0 1).position 1
      = ⟨(1 - 2 * col_rad / (d * d + smooth)) * d, 0⟩ := by
  have hsep : (axisState a b d).position 0 - (axisState a b d).position 1 = ⟨d, 0⟩ := by
    simp [axisState, Vec.sub_def]
  have h01 : (0 : ℕ) ≠ 1 := by decide
  refine ⟨?_, ?_, ?_⟩
  · rw [collide_update_velocity_fst _ h01]
    exact collide_vel_rest _ _
  · rw [collide_update_velocity_snd]
    exact collide_vel_rest _ _
  · rw [collide_update_position_fst _ h01, collide_update_position_snd,
      collide_pos_sub, hsep]
    simp [Vec.smul, cnorm]

/-- Witness for the amended C5 at distance d = 1. -/
theorem axis_resolve_witness :
    (0 : ℚ) < 1 ∧ (1 : ℚ) < col_rad
    ∧ ((collide_update (axisState 0 0 1) 0 1).velocity 0 = ⟨0, 0⟩
       ∧ (collide_update (axisState 0 0 1) 0 1).velocity 1 = ⟨0, 0⟩
       ∧ (collide_update (axisState 0 0 1) 0 1).position 0
           - (collide_update (axisState 0 0 1) 0 1).position 1
         = ⟨(1 - 2 * col_rad / (1 * 1 + smooth)) * 1, 0⟩) :=
  ⟨by norm_num, by norm_num [col_rad, radius],
   axis_resolve 0 0 1 (by norm_num) (by norm_num [col_rad, radius])⟩

/-- Claim C6: after the Integrator pass of a tick, every body with index
below `n` has `radius ≤ x ≤ world_width - radius` and
`radius ≤ y ≤ world_height - radius` — the final `in_bounds` clamp
guarantees it for any input state. -/
theorem integrate_pass_in_bounds (s : State) (i : ℕ) (hi : i < s.n) :
    radius ≤ ((integrate_pass s).position i).re
    ∧ ((integrate_pass s).position i).re ≤ world_width - radius
    ∧ radius ≤ ((integrate_pass s).position i).im
    ∧ ((integrate_pass s).position i).im ≤ world_height - radius := by
  have hle : radius ≤ world_height - radius := by
    norm_num [radius, world_height, world_width]
  have hww : world_width - radius = world_height - radius := rfl
  simp only [integrate_pass, if_pos hi, integrate_body_fst, in_bounds]
  exact ⟨clamp_low _ _ _, hww ▸ clamp_high _ hle, clamp_low _ _ _, clamp_high _ hle⟩

/-- Witness for C6 at a concrete one-body state. -/
theorem integrate_pass_in_bounds_witness :
    0 < stOne.n
    ∧ (radius ≤ ((integrate_pass stOne).position 0).re
       ∧ ((integrate_pass stOne).position 0).re ≤ world_width - radius
       ∧ radius ≤ ((integrate_pass stOne).position 0).im
       ∧ ((integrate_pass stOne).position 0).im ≤ world_height - radius) :=
  ⟨by decide, integrate_pass_in_bounds stOne 0 (by decide)⟩

/-- Claim C8: a body at `x = radius - 1` moving left (`velocity.x < 0`)
has, after one Integrator tick, a strictly positive x velocity and
`position.x = radius`. -/
theorem integrate_pass_left_wall (s : State) (i : ℕ) (hi : i < s.n)
    (hp : (s.position i).re = radius - 1) (hv : (s.velocity i).re < 0) :
    0 < ((integrate_pass s).velocity i).re
    ∧ ((integrate_pass s).position i).re = radius := by
  simp only [integrate_pass, if_pos hi]
  exact integrate_body_left_wall _ _ hp hv

/-- Witness for C8 at a concrete state: one body at (4, 100) with
velocity (-1, 0). -/
theorem integrate_pass_left_wall_witness :
    0 < stLeft.n
    ∧ (stLeft.position 0).re = radius - 1
    ∧ (stLeft.velocity 0).re < 0
    ∧ (0 < ((integrate_pass stLeft).velocity 0).re
       ∧ ((integrate_pass stLeft).position 0).re = radius) :=
  ⟨by decide, by norm_num [stLeft, radius], by norm_num [stLeft],
   integrate_pass_left_wall stLeft 0 (by decide)
     (by norm_num [stLeft, radius]) (by norm_num [stLeft])⟩

theorem count_prod_inst (a : ℕ × ℕ) (l : List (ℕ × ℕ)) :
    l.count a = @List.count _ instBEqOfDecidableEq a l := by
  unfold List.count
  apply List.countP_congr
  intro b _
  show (b == a) = true ↔ decide (b = a) = true
  simp [beq_iff_eq]

theorem pairList_nodup (n : ℕ) : (pairList n).Nodup := by
  unfold pairList
  refine List.nodup_flatMap.2 ⟨fun i _ => ?_, ?_⟩
  · exact ((List.nodup_range n).filter _).map fun a b h => by simpa using h
  · refine (List.pairwise_lt_range n).imp ?_
    intro i1 i2 hlt a ha1 ha2
    obtain ⟨j1, -, rfl⟩ := List.mem_map.1 ha1
    obtain ⟨j2, -, h2⟩ := List.mem_map.1 ha2
    exact absurd (congrArg Prod.fst h2).symm (Nat.ne_of_lt hlt)

theorem pairList_mem {n i j : ℕ} (hi : i < n) (hj : j < n) (hij : j ≠ i) :
    (i, j) ∈ pairList n := by
  unfold pairList
  refine List.mem_flatMap.2 ⟨i, List.mem_range.2 hi, ?_⟩
  exact List.mem_map.2 ⟨j, List.mem_filter.2 ⟨List.mem_range.2 hj, by simpa using hij⟩, rfl⟩

/-- Claim C1, counterexample: for two bodies the collision loop visits
the pair sequence [(0,1), (1,0)] — the single unordered pair {0,1} is
tested twice in one tick (the inner loop runs over ALL j ≠ i, not just
j > i), refuting "every unordered pair exactly once / no pair tested
more than once per tick". -/
theorem unordered_pair_once_refuted :
    pairList 2 = [(0, 1), (1, 0)]
    ∧ (pairList 2).countP (fun ij => ij == (0, 1) || ij == (1, 0)) ≠ 1 := by
  constructor
  · rfl
  · decide

/-- Claim C1 (amended): in every tick the collision loop tests every
ORDERED pair `(i,j)` with `i ≠ j` exactly once (so each unordered pair
is tested twice), in loop-index order, and `collision_pass` folds
`collide_update` over the visited sequence so that a resolved collision
is immediately visible to all later pairs of the same tick. -/
theorem ordered_pairs_visited_once (n i j : ℕ) (hi : i < n) (hj : j < n) (hij : i ≠ j) :
    (pairList n).count (i, j) = 1
    ∧ (pairList n).count (j, i) = 1
    ∧ ∀ s : State, s.n = n → collision_pass s
        = (pairList n).foldl
            (fun t ij => if is_collide t ij.1 ij.2 then collide_update t ij.1 ij.2 else t) s := by
  refine ⟨?_, ?_, ?_⟩
  · rw [count_prod_inst]
    exact List.count_eq_one_of_mem (pairList_nodup n) (pairList_mem hi hj fun h => hij h.symm)
  · rw [count_prod_inst]
    exact List.count_eq_one_of_mem (pairList_nodup n) (pairList_mem hj hi hij)
  · intro s hs
    rw [collision_pass, hs]

/-- Witness for the amended C1 with n = 2 bodies. -/
theorem ordered_pairs_visited_once_witness :
    (0 < 2 ∧ 1 < 2 ∧ (0 : ℕ) ≠ 1)
    ∧ ((pairList 2).count (0, 1) = 1
       ∧ (pairList 2).count (1, 0) = 1
       ∧ ∀ s : State, s.n = 2 → collision_pass s
           = (pairList 2).foldl
               (fun t ij => if is_collide t ij.1 ij.2 then collide_update t ij.1 ij.2 else t) s) :=
  ⟨by decide, ordered_pairs_visited_once 2 0 1 (by decide) (by decide) (by decide)⟩

/-- The while loop `for(; lag >= update_step; lag -= update_step)
update();` runs `lag / tick` ticks and leaves `lag % tick` behind:
ticks·tick + leftover = lag, and the leftover is < tick. -/
theorem drain_spec (tick : ℕ) (ht : 0 < tick) (lag : ℕ) :
    (drain tick lag).1 * tick + (drain tick lag).2 = lag
    ∧ (drain tick lag).2 < tick := by
  induction lag using Nat.strong_induction_on with
  | _ lag ih =>
    rw [drain]
    split
    case isTrue h =>
      have hlt : lag - tick < lag := Nat.sub_lt (Nat.lt_of_lt_of_le h.1 h.2) h.1
      have hrec := ih _ hlt
      refine ⟨?_, hrec.2⟩
      have := hrec.1
      simp only [Nat.add_mul, Nat.one_mul]
      omega
    case isFalse h =>
      refine ⟨by simp, ?_⟩
      simp only
      omega

theorem runFrames_aux (tick : ℕ) (ht : 0 < tick) (l : List ℕ) :
    ∀ k lag : ℕ, lag < tick →
      (l.foldl (frameStep tick) (k, lag)).1 * tick + (l.foldl (frameStep tick) (k, lag)).2
        = k * tick + lag + l.sum
      ∧ (l.foldl (frameStep tick) (k, lag)).2 < tick := by
  induction l with
  | nil => intro k lag hlag; simpa using hlag
  | cons d l ih =>
    intro k lag hlag
    have hstep : frameStep tick (k, lag) d
        = (k + (drain tick (lag + d)).1, (drain tick (lag + d)).2) := rfl
    have hd := drain_spec tick ht (lag + d)
    have hrest := ih (k + (drain tick (lag + d)).1) (drain tick (lag + d)).2 hd.2
    rw [List.foldl_cons, hstep]
    refine ⟨?_, hrest.2⟩
    rw [hrest.1, List.sum_cons, Nat.add_mul]
    have h1 := hd.1
    generalize (drain tick (lag + d)).1 * tick = Q at h1 ⊢
    generalize k * tick = K
    omega

/-- Claim C7: for any sequence of frame deltas, the total elapsed time
equals ticks_run · tick_duration + final_lag, with
0 ≤ final_lag < tick_duration (the lower bound is by the ℕ model). -/
theorem accumulator_accounting (tick : ℕ) (deltas : List ℕ) (ht : 0 < tick) :
    (runFrames tick deltas).1 * tick + (runFrames tick deltas).2 = deltas.sum
    ∧ (runFrames tick deltas).2 < tick := by
  have h := runFrames_aux tick ht deltas 0 0 ht
  simpa [runFrames] using h

/-- Witness for C7: tick = 16 and three frame deltas of 8 (the spec's
"three half-tick frames" scenario). -/
theorem accumulator_accounting_witness :
    0 < 16
    ∧ ((runFrames 16 [8, 8, 8]).1 * 16 + (runFrames 16 [8, 8, 8]).2 = [8, 8, 8].sum
       ∧ (runFrames 16 [8, 8, 8]).2 < 16) :=
  ⟨by decide, accumulator_accounting 16 [8, 8, 8] (by decide)⟩

end IdealGas
